import Mathlib

/-!
# Verification of the PandasPlotBench generated-code execution pipeline

Shallow embedding of `src/plotting_benchmark/vis_generator.py`:
the Code Assembler (`generate_code`), the Isolation Unit Builder
(`build_plots` cell construction), the Sandboxed Executor contract
(jupyter `nbconvert --execute --allow-errors`, modelled from the spec
since it is an external tool), the Result Extractor
(`parse_plots_notebook`), the Result Merger (`draw_plots` merge step)
and the File Versioning helper (`add_index_to_filename`).

Cell sources are modelled as lists of characters (`Str`), mirroring
Python string operations (`lstrip`, `split("\n")[0]`, `startswith`,
`replace`, `"\n".join`) with executable list functions.  Opaque text
(error names, image blobs, column names) is modelled as `String`.
-/

namespace PlotBench

/-- Python strings that the pipeline inspects character by character. -/
abbrev Str := List Char

/-- `s.lstrip("\n")`: drop the leading newline characters. -/
def lstripNl (s : Str) : Str := s.dropWhile (fun c => c = '\n')

/-- `s.split("\n")[0]`: the characters before the first newline. -/
def firstLine (s : Str) : Str := s.takeWhile (fun c => c ≠ '\n')

/-- The character set of Python `lstrip("# id = ")`: `{'#', ' ', 'i', 'd', '='}`. -/
def markerStripChar (c : Char) : Bool :=
  c = '#' || c = ' ' || c = 'i' || c = 'd' || c = '='

/-- `s.lstrip("# id = ")`: drop leading characters belonging to the marker set. -/
def lstripMarker (s : Str) : Str := s.dropWhile markerStripChar

/-- The id marker header written by the assembler: `"# id = "`. -/
def idMarker : Str := "# id = ".toList

/-- Decimal digit character, as produced by Python `str` on a digit `d < 10`. -/
def digitChar (d : Nat) : Char :=
  match d with
  | 0 => '0' | 1 => '1' | 2 => '2' | 3 => '3' | 4 => '4'
  | 5 => '5' | 6 => '6' | 7 => '7' | 8 => '8' | _ => '9'

/-- Fuel-driven decimal rendering (most significant digit first). -/
def natReprAux : Nat → Nat → Str
  | 0, _ => []
  | f + 1, n => if n < 10 then [digitChar n] else natReprAux f (n / 10) ++ [digitChar (n % 10)]

/-- Python `str(n)` / f-string interpolation of a natural id `n`. -/
def natRepr (n : Nat) : Str := natReprAux (n + 1) n

/-- Numeric value of a digit character. -/
def charDigit (c : Char) : Nat := c.toNat - 48

/-- Python `int(s)` on the digit strings produced by the id marker:
succeeds exactly on nonempty all-digit strings. -/
def parseNat (s : Str) : Option Nat :=
  if s ≠ [] ∧ s.all Char.isDigit then
    some (s.foldl (fun acc c => 10 * acc + charDigit c) 0)
  else none

/-- Captured output of one notebook cell (nbformat output record). -/
inductive NbOutput where
  | error (ename evalue : String)
  | displayData (data : List (String × String))
  | other
deriving DecidableEq, Repr

/-- One notebook cell: its type, its source text and its captured outputs. -/
structure Cell where
  cell_type : String
  source : Str
  outputs : List NbOutput
deriving DecidableEq, Repr

/-- Per-item extraction result (`cell_res` of `parse_plots_notebook`). -/
structure Outcome where
  id : Nat
  error : String
  plots_generated : List String
  has_plot : Bool
deriving DecidableEq, Repr

/-- One step of the extractor's output loop on the error field:
`cell_res["error"] = output.ename + ": " + output.evalue` for an error
output, no change otherwise. -/
def errStep (acc : String) (o : NbOutput) : String :=
  match o with
  | NbOutput.error en ev => en ++ ": " ++ ev
  | _ => acc

/-- The error field accumulated by the extractor's output loop, started
from `""` and overwritten by every error output in order. -/
def cellError (outs : List NbOutput) : String := outs.foldl errStep ""

/-- The images collected by the extractor's output loop: one entry per
`display_data` output holding an `"image/png"` key, in output order. -/
def cellImages (outs : List NbOutput) : List String :=
  outs.filterMap
    (fun o =>
      match o with
      | NbOutput.displayData data => data.lookup "image/png"
      | _ => none)

/-- `VisGenerator.parse_plots_notebook`: walk the cells, skip non-code
cells and cells whose (newline-stripped) source does not start with the
id marker, parse the id out of the first line, and build one `Outcome`
per marked cell.  A marked cell whose id does not parse is the Python
`int(...)` `ValueError`, modelled as `Except.error`. -/
def parse_plots_notebook : List Cell → Except String (List Outcome)
  | [] => Except.ok []
  | c :: rest =>
    if c.cell_type ≠ "code" then parse_plots_notebook rest
    else
      let code := lstripNl c.source
      if ¬ (idMarker.isPrefixOf code = true) then parse_plots_notebook rest
      else
        match parseNat (lstripMarker (firstLine code)) with
        | none => Except.error "ValueError: invalid literal for int"
        | some idx =>
          match parse_plots_notebook rest with
          | Except.error e => Except.error e
          | Except.ok res =>
            let images := cellImages c.outputs
            Except.ok
              ({ id := idx
                 error := cellError c.outputs
                 plots_generated := images
                 has_plot := decide (0 < images.length) } :: res)

/-! ## Code Assembler (`VisGenerator.generate_code`) -/

/-- One record of the benchmark dataset, as consumed by the assembler. -/
structure BenchmarkItem where
  id : Nat
  code_data : Str
  code : Str
deriving DecidableEq, Repr

/-- Python `"needle" in haystack`: some suffix of the haystack starts
with the needle. -/
def containsSub (pat : Str) : Str → Bool
  | [] => pat.isPrefixOf []
  | c :: s => pat.isPrefixOf (c :: s) || containsSub pat s

/-- Substring test on the plotting library tag (`"matplotlib" in plotting_lib`). -/
def strContains (hay needle : String) : Bool := containsSub needle.toList hay.toList

/-- Fuel-driven Python `str.replace`: replace every non-overlapping
occurrence of `pat` from the left, never rescanning the replacement. -/
def replaceAllAux (pat rep : Str) : Nat → Str → Str
  | 0, s => s
  | _ + 1, [] => []
  | f + 1, c :: s =>
    if pat ≠ [] ∧ pat.isPrefixOf (c :: s) = true then
      rep ++ replaceAllAux pat rep f (s.drop (pat.length - 1))
    else c :: replaceAllAux pat rep f s

/-- Python `s.replace(pat, rep)`. -/
def replaceAll (pat rep s : Str) : Str := replaceAllAux pat rep s.length s

/-- The forward-slash data file path `"<csv_folder>/data-<id>.csv"`
embedded into the generated source (`PurePosixPath` form). -/
def dataPathUnix (csvFolder : Str) (id : Nat) : Str :=
  csvFolder ++ "/data-".toList ++ natRepr id ++ ".csv".toList

/-- The marker line `"# id = <id>"` prepended to each item's snippet. -/
def markerLine (id : Nat) : Str := idMarker ++ natRepr id

/-- `"\n".join(blocks)`. -/
def joinNl : List Str → Str
  | [] => []
  | [b] => b
  | b :: b' :: bs => b ++ '\n' :: joinNl (b' :: bs)

/-- The `code_blocks` list assembled by `VisGenerator.generate_code`,
translated append by append from the source. -/
def generateCodeBlocks (csvFolder : Str) (plottingLib : String) (item : BenchmarkItem) :
    List Str :=
  let dataPath := dataPathUnix csvFolder item.id
  let dataLoadCode := replaceAll "data.csv".toList dataPath item.code_data
  let blocks := [markerLine item.id]
  let blocks :=
    if strContains plottingLib "matplotlib" || strContains plottingLib "seaborn" then
      blocks ++ ["%matplotlib inline".toList]
    else blocks
  let blocks :=
    if strContains plottingLib "plotly" then
      blocks ++ ["import plotly.io as pio".toList, "pio.renderers.default = \"png\"".toList]
    else blocks
  let blocks := blocks ++ [dataLoadCode, item.code]
  let blocks :=
    if strContains plottingLib "matplotlib" || strContains plottingLib "seaborn" then
      blocks ++ ["plt.rcParams.update(plt.rcParamsDefault)".toList]
    else blocks
  let blocks :=
    if strContains plottingLib "seaborn" then
      blocks ++ ["sns.reset_orig()".toList]
    else blocks
  blocks ++ ["%reset -f".toList]

/-- The assembled snippet text returned by `generate_code` on success. -/
def genSrc (csvFolder : Str) (plottingLib : String) (item : BenchmarkItem) : Str :=
  joinNl (generateCodeBlocks csvFolder plottingLib item)

/-- `VisGenerator.generate_code`: checks that the per-item csv file
exists (`fs` is the file-existence oracle on item ids) and assembles the
snippet; a missing file is the `FileNotFoundError`. -/
def generate_code (fs : Nat → Bool) (csvFolder : Str) (plottingLib : String)
    (item : BenchmarkItem) : Except String Str :=
  if fs item.id = false then
    Except.error ("FileNotFoundError: Unpacked csv datafile not found on "
      ++ String.mk (dataPathUnix csvFolder item.id))
  else Except.ok (genSrc csvFolder plottingLib item)

/-- `VisGenerator.check_csv`: walk the dataset and raise
`FileNotFoundError` at the first item whose csv file is missing.  Called
at harness construction time (`VisGenerator.__init__`). -/
def check_csv (fs : Nat → Bool) : List BenchmarkItem → Except String Unit
  | [] => Except.ok ()
  | item :: rest =>
    if fs item.id = false then
      Except.error "FileNotFoundError: Unpacked csv datafile not found"
    else check_csv fs rest

/-! ## Isolation Unit Builder (`VisGenerator.build_plots` cell list) -/

/-- Sequential `Except`-valued map: the semantics of
`dataset.apply(self.generate_code, axis=1, ...)`, where the first raised
error aborts the whole application. -/
def mapExcept (f : α → Except ε β) : List α → Except ε (List β)
  | [] => Except.ok []
  | a :: as =>
    match f a with
    | Except.error e => Except.error e
    | Except.ok b =>
      match mapExcept f as with
      | Except.error e => Except.error e
      | Except.ok bs => Except.ok (b :: bs)

/-- The one-time lets-plot setup cell source. -/
def setupSrc : Str :=
  joinNl
    ["# Setup".toList,
     "!pip install lets-plot".toList,
     "!jupyter nbextension install lets-plot --py --sys-prefix".toList,
     "!jupyter nbextension enable lets-plot --py --sys-prefix".toList]

/-- The `setup_cell` list of `build_plots`: one setup cell when the
library tag mentions lets-plot, empty otherwise. -/
def setupCells (plottingLib : String) : List Str :=
  if strContains plottingLib "lets-plot" then [setupSrc] else []

/-- The ordered cell sources of the notebook written by
`VisGenerator.build_plots` (`plot_cells = setup_cell + plot_cells`). -/
def build_plots_cells (fs : Nat → Bool) (csvFolder : Str) (plottingLib : String)
    (dataset : List BenchmarkItem) : Except String (List Str) :=
  match mapExcept (generate_code fs csvFolder plottingLib) dataset with
  | Except.error e => Except.error e
  | Except.ok cells => Except.ok (setupCells plottingLib ++ cells)

/-! ## Sandboxed Executor -/

/-- Behaviour of one cell's code under execution: either a normal run
with its captured outputs, or a runtime fault with the outputs emitted
before the fault and the error name/detail.  The behaviour is an oracle
(`Nat → Str → CellExec`) since the generated code is arbitrary. -/
inductive CellExec where
  | ok (outputs : List NbOutput)
  | fault (pre : List NbOutput) (ename evalue : String)

/-- The outputs captured for one executed cell: its normal outputs, or
the outputs emitted before its fault followed by the error record. -/
def execOuts (eval : Nat → Str → CellExec) (k : Nat) (src : Str) : List NbOutput :=
  match eval k src with
  | CellExec.ok outs => outs
  | CellExec.fault pre en ev => pre ++ [NbOutput.error en ev]

/-- The executed form of one cell. -/
def execCell (eval : Nat → Str → CellExec) (k : Nat) (src : Str) : Cell :=
  ⟨"code", src, execOuts eval k src⟩

/-- Modelled from the spec: the Sandboxed Executor — `jupyter nbconvert
--execute --allow-errors --inplace`, an external tool not under `src/`.
Cells run strictly sequentially; with `allowErrors` a cell's runtime
fault is recorded as an error output of that cell and execution
continues, without it execution stops and the remaining cells keep empty
outputs. `build_plots` always passes `--allow-errors`. -/
def runCells (eval : Nat → Str → CellExec) (allowErrors : Bool) :
    Nat → List Str → List Cell
  | _, [] => []
  | k, src :: rest =>
    match eval k src with
    | CellExec.ok outs => ⟨"code", src, outs⟩ :: runCells eval allowErrors (k + 1) rest
    | CellExec.fault pre en ev =>
      let c : Cell := ⟨"code", src, pre ++ [NbOutput.error en ev]⟩
      if allowErrors then c :: runCells eval allowErrors (k + 1) rest
      else c :: rest.map (fun s => ⟨"code", s, []⟩)

/-- The executed notebook, as `build_plots` runs it (`--allow-errors`). -/
def executeNotebook (eval : Nat → Str → CellExec) (cells : List Str) : List Cell :=
  runCells eval true 0 cells

/-- Indexed map, used to state that every cell is executed on its own. -/
def mapWithIndex (f : Nat → α → β) : Nat → List α → List β
  | _, [] => []
  | k, a :: as => f k a :: mapWithIndex f (k + 1) as

/-! ## File versioning (`add_index_to_filename`) -/

/-- The candidate filename with numeric suffix `i`: `"<stem>_<i>"`. -/
def stemWithIndex (stem : String) (i : Nat) : String :=
  stem ++ "_" ++ String.mk (natRepr i)

/-- The probing loop of `add_index_to_filename`: starting at index `i`,
advance while the candidate exists.  The Python loop is unbounded; the
`fuel` bound is inessential under the assumption that some index below
it is free (a finite directory). -/
def freeIndex (ex : Nat → Bool) : Nat → Nat → Nat
  | i, 0 => i
  | i, f + 1 => if ex i then freeIndex ex (i + 1) f else i

/-- `add_index_to_filename` (first component): the returned results
file, carrying the first unused numeric suffix.  `ex` is the
file-existence oracle (`Path.exists`). -/
def add_index_to_filename (ex : String → Bool) (stem : String) (fuel : Nat) : String :=
  stemWithIndex stem (freeIndex (fun i => ex (stemWithIndex stem i)) 0 fuel)

/-! ## Result Merger (`VisGenerator.draw_plots` merge step) -/

/-- Cell values of the merged table. -/
inductive Val where
  | vNat (n : Nat)
  | vStr (s : String)
  | vList (l : List String)
  | vBool (b : Bool)
  | null
deriving DecidableEq, Repr

/-- One table row: an ordered association of column name to value. -/
abbrev Row := List (String × Val)

/-- A dataframe: ordered column names and rows. -/
structure DF where
  cols : List String
  rows : List Row
deriving DecidableEq, Repr

/-- The join-key value of a row. -/
def rowId (row : Row) : Option Val := row.lookup "id"

/-- Drop the named columns from one row. -/
def dropColsRow (cs : List String) (row : Row) : Row :=
  row.filter (fun e => !(decide (e.1 ∈ cs)))

/-- `dataset.drop(columns=cs)`. -/
def dropCols (df : DF) (cs : List String) : DF :=
  ⟨df.cols.filter (fun c => !(decide (c ∈ cs))), df.rows.map (dropColsRow cs)⟩

/-- `dataset.columns.intersection(response.columns).drop("id")`:
the shared column names, in left order, without the join key. -/
def commonColsDropId (d r : DF) : List String :=
  (d.cols.filter (fun c => decide (c ∈ r.cols))).filter (fun c => !(decide (c = "id")))

/-- The non-key columns contributed by the right table. -/
def rightCols (r : DF) : List String := r.cols.filter (fun c => !(decide (c = "id")))

/-- The result rows contributed by one left row of a left join: one row
per matching right row (match on equal id), or a single null-padded row
when no right row matches. -/
def mergeOneRow (r : DF) (L : Row) : List Row :=
  let ms := r.rows.filter (fun R => decide (rowId R = rowId L))
  if ms = [] then [L ++ (rightCols r).map (fun c => (c, Val.null))]
  else ms.map (fun R => L ++ R.filter (fun e => !(decide (e.1 = "id"))))

/-- `dataset.merge(response, on="id", how="left")`: every left row is
kept; it is paired with each matching right row, or padded with nulls
when no right row matches. -/
def leftMerge (d r : DF) : DF :=
  ⟨d.cols ++ rightCols r, d.rows.flatMap (mergeOneRow r)⟩

/-- The merge step of `VisGenerator.draw_plots`: drop the shared
non-key columns from the dataset, then left-join the extraction response
on `"id"`. -/
def draw_plots_merge (d r : DF) : DF :=
  leftMerge (dropCols d (commonColsDropId d r)) r

/-! ## Generic list and character lemmas -/

theorem takeWhile_append_all {p : Char → Bool} {xs : Str} (ys : Str)
    (h : ∀ c ∈ xs, p c = true) : (xs ++ ys).takeWhile p = xs ++ ys.takeWhile p := by
  induction xs with
  | nil => simp
  | cons c cs ih =>
    have hc : p c = true := h c (List.mem_cons_self c cs)
    have ih' := ih (fun a ha => h a (List.mem_cons_of_mem c ha))
    simp [List.takeWhile_cons, hc, ih']

theorem dropWhile_append_all {p : Char → Bool} {xs : Str} (ys : Str)
    (h : ∀ c ∈ xs, p c = true) : (xs ++ ys).dropWhile p = ys.dropWhile p := by
  induction xs with
  | nil => simp
  | cons c cs ih =>
    have hc : p c = true := h c (List.mem_cons_self c cs)
    simp only [List.cons_append, List.dropWhile_cons, hc]
    exact ih (fun a ha => h a (List.mem_cons_of_mem c ha))

theorem isPrefixOf_append_self (l t : Str) : l.isPrefixOf (l ++ t) = true := by
  induction l with
  | nil => simp [List.isPrefixOf]
  | cons c cs ih => simp [List.isPrefixOf, ih]

theorem digitChar_isDigit (d : Nat) : (digitChar d).isDigit = true := by
  rcases d with _ | _ | _ | _ | _ | _ | _ | _ | _ | d <;> rfl

theorem charDigit_digitChar {d : Nat} (h : d < 10) : charDigit (digitChar d) = d := by
  interval_cases d <;> rfl

theorem isDigit_ne_nl {c : Char} (h : c.isDigit = true) : ¬ c = '\n' := by
  intro hc
  subst hc
  simp_all

theorem isDigit_not_markerStrip {c : Char} (h : c.isDigit = true) :
    markerStripChar c = false := by
  by_contra hne
  have hm : markerStripChar c = true := by
    cases hmc : markerStripChar c
    · exact absurd hmc hne
    · rfl
  simp only [markerStripChar, Bool.or_eq_true, decide_eq_true_eq] at hm
  rcases hm with ((((rfl | rfl) | rfl) | rfl) | rfl) <;> simp_all

/-! ## Decimal representation lemmas -/

theorem natReprAux_ne_nil {f n : Nat} (h : n < f) : natReprAux f n ≠ [] := by
  induction f generalizing n with
  | zero => omega
  | succ f ih =>
    by_cases h10 : n < 10
    · simp [natReprAux, h10]
    · simp only [natReprAux, h10, if_false]
      intro hcontra
      rcases List.append_eq_nil.mp hcontra with ⟨-, h2⟩
      exact absurd h2 (by simp)

theorem natReprAux_all_digit {f n : Nat} (h : n < f) :
    ∀ c ∈ natReprAux f n, c.isDigit = true := by
  induction f generalizing n with
  | zero => omega
  | succ f ih =>
    by_cases h10 : n < 10
    · simp only [natReprAux, h10, if_true]
      intro c hc
      rcases List.mem_singleton.mp hc with rfl
      exact digitChar_isDigit n
    · simp only [natReprAux, h10, if_false]
      intro c hc
      rcases List.mem_append.mp hc with hc | hc
      · have hlt : n / 10 < f := by
          have := Nat.div_lt_self (by omega : 0 < n) (by omega : 1 < 10)
          omega
        exact ih hlt c hc
      · rcases List.mem_singleton.mp hc with rfl
        exact digitChar_isDigit (n % 10)

theorem natReprAux_foldl {f n : Nat} (h : n < f) (a : Nat) :
    (natReprAux f n).foldl (fun acc c => 10 * acc + charDigit c) a =
      a * 10 ^ (natReprAux f n).length + n := by
  induction f generalizing n a with
  | zero => omega
  | succ f ih =>
    by_cases h10 : n < 10
    · simp only [natReprAux, h10, if_true, List.foldl_cons, List.foldl_nil,
        List.length_singleton, pow_one]
      rw [charDigit_digitChar h10]
      ring
    · have hlt : n / 10 < f := by
        have := Nat.div_lt_self (by omega : 0 < n) (by omega : 1 < 10)
        omega
      simp only [natReprAux, h10, if_false, List.foldl_append, List.foldl_cons,
        List.foldl_nil, List.length_append, List.length_singleton]
      rw [ih hlt a, charDigit_digitChar (Nat.mod_lt n (by omega))]
      have : a * 10 ^ ((natReprAux f (n / 10)).length + 1) =
          10 * (a * 10 ^ (natReprAux f (n / 10)).length) := by ring
      rw [this]
      omega

theorem parseNat_natRepr (n : Nat) : parseNat (natRepr n) = some n := by
  have hne : natRepr n ≠ [] := natReprAux_ne_nil (Nat.lt_succ_self n)
  have hdig : ∀ c ∈ natRepr n, c.isDigit = true := natReprAux_all_digit (Nat.lt_succ_self n)
  have hall : (natRepr n).all Char.isDigit = true := List.all_eq_true.mpr hdig
  simp only [parseNat, hne, hall, ne_eq, not_false_iff, true_and, if_true]
  rw [show natRepr n = natReprAux (n + 1) n from rfl,
    natReprAux_foldl (Nat.lt_succ_self n) 0]
  simp

theorem natRepr_all_digit (n : Nat) : ∀ c ∈ natRepr n, c.isDigit = true :=
  natReprAux_all_digit (Nat.lt_succ_self n)

theorem natRepr_ne_nil (n : Nat) : natRepr n ≠ [] :=
  natReprAux_ne_nil (Nat.lt_succ_self n)

/-! ## Assembler structure lemmas -/

/-- The library-specific setup lines, as the spec describes them:
inline rendering for the matplotlib family, static-renderer
configuration for plotly. -/
def setupLines (plottingLib : String) : List Str :=
  (if strContains plottingLib "matplotlib" || strContains plottingLib "seaborn" then
    ["%matplotlib inline".toList]
  else []) ++
  (if strContains plottingLib "plotly" then
    ["import plotly.io as pio".toList, "pio.renderers.default = \"png\"".toList]
  else [])

/-- The library-specific teardown lines, as the spec describes them:
rcParams reset for the matplotlib family, theme reset for seaborn. -/
def teardownLines (plottingLib : String) : List Str :=
  (if strContains plottingLib "matplotlib" || strContains plottingLib "seaborn" then
    ["plt.rcParams.update(plt.rcParamsDefault)".toList]
  else []) ++
  (if strContains plottingLib "seaborn" then ["sns.reset_orig()".toList] else [])

theorem generateCodeBlocks_eq (csvFolder : Str) (plottingLib : String)
    (item : BenchmarkItem) :
    generateCodeBlocks csvFolder plottingLib item =
      markerLine item.id ::
        (setupLines plottingLib ++
          [replaceAll "data.csv".toList (dataPathUnix csvFolder item.id) item.code_data,
            item.code] ++
          teardownLines plottingLib ++ ["%reset -f".toList]) := by
  simp only [generateCodeBlocks, setupLines, teardownLines]
  rcases h1 : strContains plottingLib "matplotlib" || strContains plottingLib "seaborn" with - | -
    <;> rcases h2 : strContains plottingLib "plotly" with - | -
    <;> rcases h3 : strContains plottingLib "seaborn" with - | -
    <;> simp

theorem joinNl_cons_of_ne_nil {r : List Str} (m : Str) (h : r ≠ []) :
    joinNl (m :: r) = m ++ '\n' :: joinNl r := by
  cases r with
  | nil => exact absurd rfl h
  | cons b bs => rfl

theorem genSrc_decomp (csvFolder : Str) (plottingLib : String) (item : BenchmarkItem) :
    ∃ t, genSrc csvFolder plottingLib item = markerLine item.id ++ '\n' :: t := by
  rw [genSrc, generateCodeBlocks_eq]
  rw [joinNl_cons_of_ne_nil]
  · exact ⟨_, rfl⟩
  · simp

theorem idMarker_eq : idMarker = ['#', ' ', 'i', 'd', ' ', '=', ' '] := rfl

theorem idMarker_strip : ∀ c ∈ idMarker, markerStripChar c = true := by decide

theorem markerLine_no_nl (id : Nat) : ∀ c ∈ markerLine id, c ≠ '\n' := by
  intro c hc
  rcases List.mem_append.mp hc with hc | hc
  · rw [idMarker_eq] at hc
    fin_cases hc <;> decide
  · exact isDigit_ne_nl (natRepr_all_digit id c hc)

theorem firstLine_marker_nl (id : Nat) (t : Str) :
    firstLine (markerLine id ++ '\n' :: t) = markerLine id := by
  rw [firstLine,
    takeWhile_append_all _ (fun c hc => decide_eq_true (markerLine_no_nl id c hc))]
  simp [List.takeWhile_cons]

theorem lstripNl_marker_append (id : Nat) (t : Str) :
    lstripNl (markerLine id ++ t) = markerLine id ++ t := by
  rw [markerLine, idMarker]
  simp [lstripNl, List.dropWhile_cons]

theorem lstripMarker_markerLine (id : Nat) : lstripMarker (markerLine id) = natRepr id := by
  rw [markerLine, lstripMarker, dropWhile_append_all _ idMarker_strip]
  rcases hrep : natRepr id with - | ⟨c, cs⟩
  · exact absurd hrep (natRepr_ne_nil id)
  · have hd : c.isDigit = true := by
      apply natRepr_all_digit id
      rw [hrep]
      exact List.mem_cons_self c cs
    simp [List.dropWhile_cons, isDigit_not_markerStrip hd]

theorem markerId_parses (id : Nat) (t : Str) :
    parseNat (lstripMarker (firstLine (markerLine id ++ '\n' :: t))) = some id := by
  rw [firstLine_marker_nl, lstripMarker_markerLine, parseNat_natRepr]

/-! ## Extractor lemmas -/

theorem parse_skip {c : Cell} (rest : List Cell)
    (h : c.cell_type ≠ "code" ∨ idMarker.isPrefixOf (lstripNl c.source) = false) :
    parse_plots_notebook (c :: rest) = parse_plots_notebook rest := by
  rcases h with h | h
  · simp [parse_plots_notebook, h]
  · by_cases ht : c.cell_type = "code"
    · simp [parse_plots_notebook, ht, h]
    · simp [parse_plots_notebook, ht]

theorem parse_cons_marked {c : Cell} (rest : List Cell) {idx : Nat}
    (ht : c.cell_type = "code")
    (hm : idMarker.isPrefixOf (lstripNl c.source) = true)
    (hp : parseNat (lstripMarker (firstLine (lstripNl c.source))) = some idx) :
    parse_plots_notebook (c :: rest) =
      match parse_plots_notebook rest with
      | Except.error e => Except.error e
      | Except.ok res =>
        Except.ok
          ({ id := idx
             error := cellError c.outputs
             plots_generated := cellImages c.outputs
             has_plot := decide (0 < (cellImages c.outputs).length) } :: res) := by
  simp [parse_plots_notebook, ht, hm, hp]

theorem parse_cons_genSrc (csvFolder : Str) (plottingLib : String) (item : BenchmarkItem)
    (outs : List NbOutput) (rest : List Cell) :
    parse_plots_notebook (⟨"code", genSrc csvFolder plottingLib item, outs⟩ :: rest) =
      match parse_plots_notebook rest with
      | Except.error e => Except.error e
      | Except.ok res =>
        Except.ok
          ({ id := item.id
             error := cellError outs
             plots_generated := cellImages outs
             has_plot := decide (0 < (cellImages outs).length) } :: res) := by
  rcases genSrc_decomp csvFolder plottingLib item with ⟨t, hg⟩
  refine parse_cons_marked rest rfl ?_ ?_
  · show idMarker.isPrefixOf (lstripNl (genSrc csvFolder plottingLib item)) = true
    rw [hg, lstripNl_marker_append, markerLine, List.append_assoc]
    exact isPrefixOf_append_self _ _
  · show parseNat (lstripMarker (firstLine (lstripNl (genSrc csvFolder plottingLib item)))) =
      some item.id
    rw [hg, lstripNl_marker_append, markerId_parses]

/-! ## Executor lemmas -/

theorem runCells_true_eq (eval : Nat → Str → CellExec) :
    ∀ (cells : List Str) (k : Nat),
      runCells eval true k cells = mapWithIndex (execCell eval) k cells := by
  intro cells
  induction cells with
  | nil => intro k; rfl
  | cons src rest ih =>
    intro k
    rw [runCells, mapWithIndex]
    cases hev : eval k src with
    | ok outs => simp [hev, execCell, execOuts, ih (k + 1)]
    | fault pre en ev => simp [hev, execCell, execOuts, ih (k + 1)]

theorem mapWithIndex_length (f : Nat → α → β) :
    ∀ (l : List α) (k : Nat), (mapWithIndex f k l).length = l.length := by
  intro l
  induction l with
  | nil => intro k; rfl
  | cons a as ih => intro k; simp [mapWithIndex, ih (k + 1)]

theorem mapWithIndex_getElem? (f : Nat → α → β) :
    ∀ (l : List α) (k i : Nat), (mapWithIndex f k l)[i]? = l[i]?.map (f (k + i)) := by
  intro l
  induction l with
  | nil => intro k i; rfl
  | cons a as ih =>
    intro k i
    cases i with
    | zero => simp [mapWithIndex]
    | succ i =>
      simp only [mapWithIndex, List.getElem?_cons_succ]
      rw [ih (k + 1) i]
      have h : k + 1 + i = k + (i + 1) := by omega
      rw [h]

theorem mapWithIndex_append (f : Nat → α → β) :
    ∀ (xs ys : List α) (k : Nat),
      mapWithIndex f k (xs ++ ys) =
        mapWithIndex f k xs ++ mapWithIndex f (k + xs.length) ys := by
  intro xs
  induction xs with
  | nil => intro ys k; simp [mapWithIndex]
  | cons a as ih =>
    intro ys k
    show f k a :: mapWithIndex f (k + 1) (as ++ ys) =
      f k a :: (mapWithIndex f (k + 1) as ++ mapWithIndex f (k + (as.length + 1)) ys)
    rw [ih ys (k + 1)]
    have h : k + 1 + as.length = k + (as.length + 1) := by omega
    rw [h]

/-! ## Builder lemmas -/

theorem mapExcept_gen_ok (fs : Nat → Bool) (csvFolder : Str) (plottingLib : String) :
    ∀ (l : List BenchmarkItem), (∀ a ∈ l, fs a.id = true) →
      mapExcept (generate_code fs csvFolder plottingLib) l =
        Except.ok (l.map (genSrc csvFolder plottingLib)) := by
  intro l
  induction l with
  | nil => intro h; rfl
  | cons a as ih =>
    intro h
    have ha : fs a.id = true := h a (List.mem_cons_self a as)
    have has : ∀ b ∈ as, fs b.id = true := fun b hb => h b (List.mem_cons_of_mem a hb)
    rw [mapExcept, generate_code]
    simp only [ha, Bool.true_eq_false, if_false, ih has]
    rfl

theorem mapExcept_gen_ok_inv (fs : Nat → Bool) (csvFolder : Str) (plottingLib : String) :
    ∀ (l : List BenchmarkItem) (bs : List Str),
      mapExcept (generate_code fs csvFolder plottingLib) l = Except.ok bs →
        bs = l.map (genSrc csvFolder plottingLib) := by
  intro l
  induction l with
  | nil =>
    intro bs h
    simp only [mapExcept] at h
    cases h
    rfl
  | cons a as ih =>
    intro bs h
    rw [mapExcept] at h
    cases hfa : generate_code fs csvFolder plottingLib a with
    | error e => rw [hfa] at h; cases h
    | ok b =>
      rw [hfa] at h
      cases hrest : mapExcept (generate_code fs csvFolder plottingLib) as with
      | error e => rw [hrest] at h; cases h
      | ok bs' =>
        rw [hrest] at h
        cases h
        have hb : b = genSrc csvFolder plottingLib a := by
          rw [generate_code] at hfa
          by_cases hf : fs a.id = false
          · rw [if_pos hf] at hfa; cases hfa
          · rw [if_neg hf] at hfa; cases hfa; rfl
        rw [hb, ih bs' hrest]
        rfl

theorem build_plots_cells_ok_inv (fs : Nat → Bool) (csvFolder : Str) (plottingLib : String)
    (dataset : List BenchmarkItem) (cells : List Str)
    (h : build_plots_cells fs csvFolder plottingLib dataset = Except.ok cells) :
    cells = setupCells plottingLib ++ dataset.map (genSrc csvFolder plottingLib) := by
  rw [build_plots_cells] at h
  cases hm : mapExcept (generate_code fs csvFolder plottingLib) dataset with
  | error e => rw [hm] at h; cases h
  | ok bs =>
    rw [hm] at h
    cases h
    rw [mapExcept_gen_ok_inv fs csvFolder plottingLib dataset bs hm]

/-! ## Pipeline extraction lemmas -/

theorem parse_skip_setup (eval : Nat → Str → CellExec) (k : Nat) (rest : List Cell) :
    parse_plots_notebook (execCell eval k setupSrc :: rest) = parse_plots_notebook rest := by
  apply parse_skip
  right
  show idMarker.isPrefixOf (lstripNl (execCell eval k setupSrc).source) = false
  rw [show (execCell eval k setupSrc).source = setupSrc from rfl]
  decide

theorem parse_executed_gens (eval : Nat → Str → CellExec) (csvFolder : Str)
    (plottingLib : String) :
    ∀ (ds : List BenchmarkItem) (k : Nat),
      ∃ outs,
        parse_plots_notebook
            (mapWithIndex (execCell eval) k (ds.map (genSrc csvFolder plottingLib))) =
          Except.ok outs ∧
        outs.map (fun o => o.id) = ds.map (fun i => i.id) := by
  intro ds
  induction ds with
  | nil => intro k; exact ⟨[], rfl, rfl⟩
  | cons item rest ih =>
    intro k
    obtain ⟨outs', hok, hids⟩ := ih (k + 1)
    simp only [List.map_cons, mapWithIndex]
    rw [show execCell eval k (genSrc csvFolder plottingLib item) =
      (⟨"code", genSrc csvFolder plottingLib item,
        execOuts eval k (genSrc csvFolder plottingLib item)⟩ : Cell) from rfl]
    rw [parse_cons_genSrc, hok]
    exact ⟨_, rfl, by simp [hids]⟩

/-! ## File versioning lemmas -/

theorem freeIndex_spec (p : Nat → Bool) :
    ∀ (f i : Nat), (∃ j, j < f ∧ p (i + j) = false) →
      p (freeIndex p i f) = false ∧ i ≤ freeIndex p i f ∧
        ∀ j, i ≤ j → j < freeIndex p i f → p j = true := by
  intro f
  induction f with
  | zero =>
    rintro i ⟨j, hj, -⟩
    omega
  | succ f ih =>
    rintro i ⟨j, hj, hpj⟩
    by_cases hpi : p i = true
    · have hj0 : j ≠ 0 := by
        intro h0
        rw [h0] at hpj
        simp only [Nat.add_zero] at hpj
        rw [hpi] at hpj
        cases hpj
      have hex : ∃ j', j' < f ∧ p ((i + 1) + j') = false := by
        refine ⟨j - 1, by omega, ?_⟩
        have : (i + 1) + (j - 1) = i + j := by omega
        rw [this]
        exact hpj
      obtain ⟨h1, h2, h3⟩ := ih (i + 1) hex
      rw [freeIndex, if_pos hpi]
      refine ⟨h1, by omega, ?_⟩
      intro j' hij' hlt
      rcases Nat.eq_or_lt_of_le hij' with heq | hgt
      · rw [← heq]; exact hpi
      · exact h3 j' (by omega) hlt
    · have hpi' : p i = false := by
        cases hp : p i
        · rfl
        · exact absurd hp hpi
      rw [freeIndex, if_neg (by rw [hpi']; exact Bool.false_ne_true)]
      exact ⟨hpi', Nat.le_refl i, fun j' hij hlt => by omega⟩

/-! ## Merger lemmas -/

theorem mem_commonColsDropId {d r : DF} {c : String} :
    c ∈ commonColsDropId d r ↔ c ∈ d.cols ∧ c ∈ r.cols ∧ ¬ c = "id" := by
  simp only [commonColsDropId, List.mem_filter, decide_eq_true_eq, Bool.not_eq_true',
    decide_eq_false_iff_not, and_assoc]

theorem mem_rightCols {r : DF} {c : String} :
    c ∈ rightCols r ↔ c ∈ r.cols ∧ ¬ c = "id" := by
  simp [rightCols, List.mem_filter]

theorem draw_plots_merge_cols (d r : DF) :
    (draw_plots_merge d r).cols =
      d.cols.filter (fun c => !(decide (c ∈ commonColsDropId d r))) ++ rightCols r := rfl

theorem kept_not_right {d r : DF} {c : String}
    (hk : c ∈ d.cols.filter (fun c => !(decide (c ∈ commonColsDropId d r)))) :
    c ∉ rightCols r := by
  rcases List.mem_filter.mp hk with ⟨hcd, hnc⟩
  intro hr
  rcases mem_rightCols.mp hr with ⟨hcr, hcid⟩
  have hmem : c ∈ commonColsDropId d r := mem_commonColsDropId.mpr ⟨hcd, hcr, hcid⟩
  simp [hmem] at hnc

theorem mergeOneRow_head (r : DF) (L : Row) : ∃ t, (L ++ t) ∈ mergeOneRow r L := by
  rw [mergeOneRow]
  rcases hms : r.rows.filter (fun R => decide (rowId R = rowId L)) with - | ⟨R, Rs⟩
  · exact ⟨(rightCols r).map (fun c => (c, Val.null)), by simp⟩
  · refine ⟨R.filter (fun e => !(decide (e.1 = "id"))), ?_⟩
    simp only [List.cons_ne_self, if_neg, reduceCtorEq]
    exact List.mem_map_of_mem _ (List.mem_cons_self R Rs)

theorem merge_retains (d r : DF) :
    ∀ L ∈ d.rows, ∃ out ∈ (draw_plots_merge d r).rows,
      ∃ t, out = dropColsRow (commonColsDropId d r) L ++ t := by
  intro L hL
  have hL' : dropColsRow (commonColsDropId d r) L ∈ (dropCols d (commonColsDropId d r)).rows :=
    List.mem_map_of_mem _ hL
  obtain ⟨t, ht⟩ := mergeOneRow_head r (dropColsRow (commonColsDropId d r) L)
  exact ⟨_, List.mem_flatMap.mpr ⟨_, hL', ht⟩, t, rfl⟩

theorem draw_plots_merge_nodup {d r : DF} (hd : d.cols.Nodup) (hr : r.cols.Nodup) :
    (draw_plots_merge d r).cols.Nodup := by
  rw [draw_plots_merge_cols]
  refine List.Nodup.append (hd.filter _) (hr.filter _) ?_
  intro c hc hcr
  exact kept_not_right hc hcr

theorem draw_plots_merge_cols_stable (d r : DF) :
    (draw_plots_merge (draw_plots_merge d r) r).cols = (draw_plots_merge d r).cols := by
  have hcommon2 : commonColsDropId (draw_plots_merge d r) r = rightCols r := by
    show ((draw_plots_merge d r).cols.filter (fun c => decide (c ∈ r.cols))).filter
        (fun c => !(decide (c = "id"))) = rightCols r
    rw [draw_plots_merge_cols, List.filter_append, List.filter_append]
    have hA : ((d.cols.filter (fun c => !(decide (c ∈ commonColsDropId d r)))).filter
        (fun c => decide (c ∈ r.cols))).filter (fun c => !(decide (c = "id"))) = [] := by
      rw [List.filter_filter, List.filter_filter]
      apply List.filter_eq_nil_iff.mpr
      intro c hc hcontra
      simp only [Bool.and_eq_true, Bool.not_eq_true', decide_eq_false_iff_not,
        decide_eq_true_eq] at hcontra
      obtain ⟨⟨hcid, hcr⟩, hnotc⟩ := hcontra
      exact hnotc (mem_commonColsDropId.mpr ⟨hc, hcr, hcid⟩)
    have hB : ((rightCols r).filter (fun c => decide (c ∈ r.cols))).filter
        (fun c => !(decide (c = "id"))) = rightCols r := by
      rw [List.filter_filter]
      apply List.filter_eq_self.mpr
      intro c hc
      rcases mem_rightCols.mp hc with ⟨hcr, hcid⟩
      simp [hcr, hcid]
    rw [hA, hB]
    rfl
  rw [show (draw_plots_merge (draw_plots_merge d r) r).cols =
    (draw_plots_merge d r).cols.filter
        (fun c => !(decide (c ∈ commonColsDropId (draw_plots_merge d r) r))) ++ rightCols r
    from rfl]
  rw [hcommon2, draw_plots_merge_cols, List.filter_append]
  have hkept : (d.cols.filter (fun c => !(decide (c ∈ commonColsDropId d r)))).filter
      (fun c => !(decide (c ∈ rightCols r))) =
        d.cols.filter (fun c => !(decide (c ∈ commonColsDropId d r))) := by
    apply List.filter_eq_self.mpr
    intro c hc
    simp only [Bool.not_eq_true', decide_eq_false_iff_not]
    exact kept_not_right hc
  have hrights : (rightCols r).filter (fun c => !(decide (c ∈ rightCols r))) = [] := by
    apply List.filter_eq_nil_iff.mpr
    intro c hc
    simp [hc]
  rw [hkept, hrights, List.append_nil]

/-! ## Error-field accumulation lemmas -/

/-- Is this output an error record? -/
def isErr : NbOutput → Bool
  | NbOutput.error _ _ => true
  | _ => false

/-- Following the spec's words: the `"<ename>: <evalue>"` of the FIRST
error record of the output list, `""` when there is none. -/
def firstErrorString : List NbOutput → String
  | [] => ""
  | NbOutput.error en ev :: _ => en ++ ": " ++ ev
  | _ :: rest => firstErrorString rest

/-- The `"<ename>: <evalue>"` of the LAST error record of the output
list, `""` when there is none. -/
def lastErrorString (outs : List NbOutput) : String := firstErrorString outs.reverse

theorem firstErrorString_append (xs ys : List NbOutput) :
    firstErrorString (xs ++ ys) =
      if xs.any isErr then firstErrorString xs else firstErrorString ys := by
  induction xs with
  | nil => simp [firstErrorString]
  | cons x xs ih =>
    cases x with
    | error en ev => simp [firstErrorString, isErr]
    | displayData data => simpa [firstErrorString, isErr] using ih
    | other => simpa [firstErrorString, isErr] using ih

theorem firstErrorString_no_err (xs : List NbOutput) (h : xs.any isErr = false) :
    firstErrorString xs = "" := by
  induction xs with
  | nil => rfl
  | cons x xs ih =>
    rw [List.any_cons] at h
    rcases Bool.or_eq_false_iff.mp h with ⟨hx, hxs⟩
    cases x with
    | error en ev => cases hx
    | displayData data => exact ih hxs
    | other => exact ih hxs

theorem foldl_errStep (outs : List NbOutput) :
    ∀ a, outs.foldl errStep a = if outs.any isErr then lastErrorString outs else a := by
  induction outs with
  | nil => intro a; simp
  | cons o rest ih =>
    intro a
    rw [List.foldl_cons, ih (errStep a o)]
    have hoc : lastErrorString (o :: rest) =
        if rest.any isErr then firstErrorString rest.reverse else firstErrorString [o] := by
      rw [lastErrorString, List.reverse_cons, firstErrorString_append, List.any_reverse]
    rw [hoc, List.any_cons]
    by_cases hr : rest.any isErr = true
    · simp [hr, lastErrorString]
    · have hr' : rest.any isErr = false := by
        cases hx : rest.any isErr
        · rfl
        · exact absurd hx hr
      cases o with
      | error en ev => simp [hr', errStep, isErr, firstErrorString]
      | displayData data => simp [hr', errStep, isErr]
      | other => simp [hr', errStep, isErr]

theorem cellError_eq_lastError (outs : List NbOutput) :
    cellError outs = lastErrorString outs := by
  rw [cellError, foldl_errStep]
  by_cases h : outs.any isErr = true
  · rw [if_pos h]
  · have h' : outs.any isErr = false := by
      cases hx : outs.any isErr
      · rfl
      · exact absurd hx h
    rw [if_neg (by rw [h']; exact Bool.false_ne_true)]
    rw [lastErrorString, firstErrorString_no_err outs.reverse (by rw [List.any_reverse, h'])]

/-! ## Extractor invariant: `has_plot` is derived, never independent -/

theorem parse_has_plot_inv :
    ∀ (cells : List Cell) (outcomes : List Outcome),
      parse_plots_notebook cells = Except.ok outcomes →
      ∀ o ∈ outcomes, o.has_plot = decide (0 < o.plots_generated.length) := by
  intro cells
  induction cells with
  | nil =>
    intro outcomes h o ho
    rw [parse_plots_notebook] at h
    cases h
    exact absurd ho (List.not_mem_nil o)
  | cons c rest ih =>
    intro outcomes h o ho
    by_cases ht : c.cell_type = "code"
    · by_cases hm : idMarker.isPrefixOf (lstripNl c.source) = true
      · cases hp : parseNat (lstripMarker (firstLine (lstripNl c.source))) with
        | none =>
          rw [parse_plots_notebook] at h
          simp only [ht, ne_eq, not_true_eq_false, if_false, hm, not_true_eq_false] at h
          rw [hp] at h
          cases h
        | some idx =>
          rw [parse_cons_marked rest ht hm hp] at h
          cases hrest : parse_plots_notebook rest with
          | error e => rw [hrest] at h; cases h
          | ok res =>
            rw [hrest] at h
            cases h
            rcases List.mem_cons.mp ho with rfl | ho'
            · rfl
            · exact ih res hrest o ho'
      · have hm' : idMarker.isPrefixOf (lstripNl c.source) = false := by
          cases hx : idMarker.isPrefixOf (lstripNl c.source)
          · rfl
          · exact absurd hx hm
        rw [parse_skip rest (Or.inr hm')] at h
        exact ih outcomes h o ho
    · rw [parse_skip rest (Or.inl ht)] at h
      exact ih outcomes h o ho

/-! ## Claim theorems -/

/-- C1: for every notebook built from the benchmark items and executed
with allow-errors semantics, execution produces exactly one executed
cell per input cell, the `k`-th executed cell is determined by the
`k`-th source alone (so a fault in sub-unit `k` never prevents
sub-units `k+1..n` from executing and yielding their own outputs), and
a runtime fault of sub-unit `k` is recorded as an error output of that
same sub-unit.  The executor itself (jupyter nbconvert) is external to
the repository and modelled from the spec. -/
theorem C1_subunit_isolation (eval : Nat → Str → CellExec) (cells : List Str) :
    (executeNotebook eval cells).length = cells.length ∧
    (∀ k : Nat, (executeNotebook eval cells)[k]? = cells[k]?.map (execCell eval k)) ∧
    (∀ (k : Nat) (src : Str) (pre : List NbOutput) (en ev : String),
      eval k src = CellExec.fault pre en ev →
      execCell eval k src = ⟨"code", src, pre ++ [NbOutput.error en ev]⟩) := by
  refine ⟨?_, ?_, ?_⟩
  · rw [executeNotebook, runCells_true_eq]
    exact mapWithIndex_length _ cells 0
  · intro k
    rw [executeNotebook, runCells_true_eq, mapWithIndex_getElem?, Nat.zero_add]
  · intro k src pre en ev hev
    simp [execCell, execOuts, hev]

/-- C1 witness: a concrete two-cell notebook whose first cell faults;
the second cell still executes and the fault is recorded against the
first cell. -/
def evalC1 : Nat → Str → CellExec :=
  fun k _ =>
    if k = 0 then CellExec.fault [] "NameError" "name 'x' is not defined"
    else CellExec.ok [NbOutput.displayData [("image/png", "iVBOR")]]

theorem C1_subunit_isolation_witness :
    (executeNotebook evalC1 ["# id = 1".toList, "# id = 2".toList]).length = 2 ∧
    execCell evalC1 0 "# id = 1".toList =
      ⟨"code", "# id = 1".toList, [NbOutput.error "NameError" "name 'x' is not defined"]⟩ ∧
    (executeNotebook evalC1 ["# id = 1".toList, "# id = 2".toList])[1]? =
      some (execCell evalC1 1 "# id = 2".toList) := by
  obtain ⟨h1, h2, h3⟩ := C1_subunit_isolation evalC1 ["# id = 1".toList, "# id = 2".toList]
  refine ⟨h1, ?_, ?_⟩
  · exact h3 0 "# id = 1".toList [] "NameError" "name 'x' is not defined" rfl
  · rw [h2 1]
    rfl

/-- C2 counterexample: a marked sub-unit with two error records in its
captured outputs; the claim says the Outcome's error field equals the
FIRST record's `"<ename>: <evalue>"` (`"NameError: first"`), but the
extractor reports the second record's string. -/
def c2cell : Cell :=
  ⟨"code", "# id = 5".toList,
    [NbOutput.error "NameError" "first", NbOutput.error "TypeError" "second"]⟩

theorem C2_first_error_counterexample :
    parse_plots_notebook [c2cell] =
      Except.ok
        [{ id := 5, error := "TypeError: second", plots_generated := [], has_plot := false }] ∧
    ¬ ("TypeError: second" = "NameError: first") := by
  exact ⟨rfl, by decide⟩

/-- C2 (amended): for every marked sub-unit, the Outcome's error field
equals the `"<ename>: <evalue>"` of the LAST error record of its
captured outputs in output order (last error wins; `""` when no error
record exists) — the extractor's loop overwrites the field at every
error record. -/
theorem C2_last_error_wins (c : Cell) (idx : Nat)
    (ht : c.cell_type = "code")
    (hm : idMarker.isPrefixOf (lstripNl c.source) = true)
    (hp : parseNat (lstripMarker (firstLine (lstripNl c.source))) = some idx) :
    ∃ o, parse_plots_notebook [c] = Except.ok [o] ∧ o.error = lastErrorString c.outputs := by
  rw [parse_cons_marked [] ht hm hp]
  exact ⟨_, rfl, cellError_eq_lastError c.outputs⟩

/-- C2 witness: the amended claim applied to the concrete two-error
cell; the last error record (`"TypeError: second"`) wins. -/
theorem C2_last_error_wins_witness :
    ∃ o, parse_plots_notebook [c2cell] = Except.ok [o] ∧
      o.error = lastErrorString c2cell.outputs :=
  C2_last_error_wins c2cell 5 rfl rfl rfl

/-- C3: (i) for every parsed notebook, every returned Outcome has
`has_plot` equal to `plots_generated ≠ []` — it is computed from the
image list, never stored independently; (ii) for every marked code
cell, the Outcome's `plots_generated` is exactly the list of the
`image/png` payloads of its `display_data` outputs; (iii) that list
preserves emission order (it distributes over concatenation of output
streams). -/
theorem C3_plots_and_has_plot :
    (∀ (cells : List Cell) (outcomes : List Outcome),
      parse_plots_notebook cells = Except.ok outcomes →
      ∀ o ∈ outcomes, (o.has_plot = true ↔ o.plots_generated ≠ [])) ∧
    (∀ (c : Cell) (idx : Nat), c.cell_type = "code" →
      idMarker.isPrefixOf (lstripNl c.source) = true →
      parseNat (lstripMarker (firstLine (lstripNl c.source))) = some idx →
      parse_plots_notebook [c] =
        Except.ok
          [{ id := idx
             error := cellError c.outputs
             plots_generated := cellImages c.outputs
             has_plot := decide (0 < (cellImages c.outputs).length) }]) ∧
    (∀ (pre post : List NbOutput),
      cellImages (pre ++ post) = cellImages pre ++ cellImages post) := by
  refine ⟨?_, ?_, ?_⟩
  · intro cells outcomes h o ho
    rw [parse_has_plot_inv cells outcomes h o ho]
    simp [List.length_pos]
  · intro c idx ht hm hp
    rw [parse_cons_marked [] ht hm hp]
    rfl
  · intro pre post
    exact List.filterMap_append pre post _

/-- C3 witness: a concrete marked cell with two displayed images, one
`display_data` output without an image payload, and one other output;
`plots_generated` lists exactly the two images in emission order and
`has_plot` is true. -/
def c3cell : Cell :=
  ⟨"code", "# id = 9".toList,
    [NbOutput.displayData [("image/png", "AAA")], NbOutput.other,
      NbOutput.displayData [("text/plain", "txt")],
      NbOutput.displayData [("image/png", "BBB")]]⟩

theorem C3_plots_and_has_plot_witness :
    parse_plots_notebook [c3cell] =
      Except.ok
        [{ id := 9, error := "", plots_generated := ["AAA", "BBB"], has_plot := true }] ∧
    (true = true ↔ (["AAA", "BBB"] : List String) ≠ []) := by
  obtain ⟨hiff, hcell, -⟩ := C3_plots_and_has_plot
  have h := hcell c3cell 9 rfl rfl rfl
  refine ⟨h.trans rfl, ?_⟩
  exact hiff [c3cell] _ (h.trans rfl) _ (List.mem_singleton.mpr rfl)

/-- C4: for every target folder/base filename (abstracted as the stem
and the existence oracle `ex`) such that some index below the probing
bound is free, `add_index_to_filename` returns the candidate with the
first unused numeric suffix found by probing sequentially from index 0:
the returned path is not an existing file, every smaller index is in
use, index 0 is chosen when it is free, and when `_0.._k` all exist
with no gaps and `_(k+1)` is free the chosen index is `k + 1`. -/
theorem C4_first_free_suffix (ex : String → Bool) (stem : String) (fuel : Nat)
    (h : ∃ i, i < fuel ∧ ex (stemWithIndex stem i) = false) :
    ex (add_index_to_filename ex stem fuel) = false ∧
    ∃ c, add_index_to_filename ex stem fuel = stemWithIndex stem c ∧
      (∀ j < c, ex (stemWithIndex stem j) = true) ∧
      (ex (stemWithIndex stem 0) = false → c = 0) ∧
      (∀ k, (∀ j ≤ k, ex (stemWithIndex stem j) = true) →
        ex (stemWithIndex stem (k + 1)) = false → c = k + 1) := by
  obtain ⟨h1, -, h3⟩ :=
    freeIndex_spec (fun i => ex (stemWithIndex stem i)) fuel 0
      (by obtain ⟨i, hi, hei⟩ := h; exact ⟨i, hi, by simpa using hei⟩)
  refine ⟨h1, freeIndex (fun i => ex (stemWithIndex stem i)) 0 fuel, rfl, ?_, ?_, ?_⟩
  · intro j hj
    exact h3 j (Nat.zero_le j) hj
  · intro h0
    by_contra hne
    have hpos : 0 < freeIndex (fun i => ex (stemWithIndex stem i)) 0 fuel :=
      Nat.pos_of_ne_zero hne
    have := h3 0 (Nat.le_refl 0) hpos
    rw [h0] at this
    cases this
  · intro k hall hk1
    rcases Nat.lt_trichotomy (freeIndex (fun i => ex (stemWithIndex stem i)) 0 fuel)
        (k + 1) with hlt | heq | hgt
    · have hc := hall (freeIndex (fun i => ex (stemWithIndex stem i)) 0 fuel) (by omega)
      rw [h1] at hc
      cases hc
    · exact heq
    · have := h3 (k + 1) (Nat.zero_le _) hgt
      rw [hk1] at this
      cases this

/-- C4 witness: `plots_0` and `plots_1` exist, nothing else does; the
chosen path is `plots_2` (the highest existing index plus one) and it is
not an existing file. -/
def exC4 : String → Bool := fun s => s == "plots_0" || s == "plots_1"

theorem C4_first_free_suffix_witness :
    exC4 (add_index_to_filename exC4 "plots" 5) = false ∧
    add_index_to_filename exC4 "plots" 5 = "plots_2" := by
  obtain ⟨h1, -⟩ := C4_first_free_suffix exC4 "plots" 5 ⟨2, by decide, rfl⟩
  exact ⟨h1, rfl⟩

/-- C5: the merge step of `draw_plots` first drops from the original
collection every column name shared with the extraction response except
the join key `"id"`, then left-joins on id.  Consequently (i) every
original row is retained in the result (its kept fields form the left
part of some result row, even when no Outcome matches its id), (ii) the
result has no duplicate column names, and (iii) merging a second time
(simulating a re-run) leaves the column list unchanged — no duplicated
or renamed error/has_plot/plots_generated columns. -/
theorem C5_merge_left_join (d r : DF) (hd : d.cols.Nodup) (hr : r.cols.Nodup)
    (hid_d : "id" ∈ d.cols) (hid_r : "id" ∈ r.cols) :
    (∀ L ∈ d.rows, ∃ out ∈ (draw_plots_merge d r).rows,
      ∃ t, out = dropColsRow (commonColsDropId d r) L ++ t) ∧
    (draw_plots_merge d r).cols.Nodup ∧
    (draw_plots_merge (draw_plots_merge d r) r).cols = (draw_plots_merge d r).cols :=
  ⟨merge_retains d r, draw_plots_merge_nodup hd hr, draw_plots_merge_cols_stable d r⟩

/-- C5 witness: a two-item collection carrying a stale `error` column
merged with a one-Outcome response (so the second item has no match and
is retained by the left join). -/
def dC5 : DF :=
  ⟨["id", "task", "error"],
    [[("id", Val.vNat 1), ("task", Val.vStr "bar plot"), ("error", Val.vStr "stale")],
      [("id", Val.vNat 2), ("task", Val.vStr "line plot"), ("error", Val.vStr "stale")]]⟩

def rC5 : DF :=
  ⟨["id", "error", "has_plot"],
    [[("id", Val.vNat 1), ("error", Val.vStr ""), ("has_plot", Val.vBool true)]]⟩

theorem C5_merge_left_join_witness :
    (∀ L ∈ dC5.rows, ∃ out ∈ (draw_plots_merge dC5 rC5).rows,
      ∃ t, out = dropColsRow (commonColsDropId dC5 rC5) L ++ t) ∧
    (draw_plots_merge dC5 rC5).cols.Nodup ∧
    (draw_plots_merge (draw_plots_merge dC5 rC5) rC5).cols = (draw_plots_merge dC5 rC5).cols :=
  C5_merge_left_join dC5 rC5 (by decide) (by decide) (by decide) (by decide)

/-- C6: for every benchmark item and plotting-library tag, the
assembled cell is marker line first, then the library setup lines, then
the data-loading code and the generated code, then the library teardown
lines, with the namespace reset `%reset -f` as the final block; the
first line of the joined snippet text is exactly `"# id = <id>"`. -/
theorem C6_snippet_structure (csvFolder : Str) (plottingLib : String)
    (item : BenchmarkItem) :
    generateCodeBlocks csvFolder plottingLib item =
      markerLine item.id ::
        (setupLines plottingLib ++
          [replaceAll "data.csv".toList (dataPathUnix csvFolder item.id) item.code_data,
            item.code] ++
          teardownLines plottingLib ++ ["%reset -f".toList]) ∧
    firstLine (genSrc csvFolder plottingLib item) = idMarker ++ natRepr item.id ∧
    (generateCodeBlocks csvFolder plottingLib item).getLast? = some "%reset -f".toList := by
  refine ⟨generateCodeBlocks_eq csvFolder plottingLib item, ?_, ?_⟩
  · obtain ⟨t, ht⟩ := genSrc_decomp csvFolder plottingLib item
    rw [ht, firstLine_marker_nl]
    rfl
  · rw [generateCodeBlocks_eq, ← List.cons_append, List.getLast?_concat]

/-- C7: for every item collection whose data files all exist, the built
notebook contains one code cell per item in input order, preceded by a
single setup cell exactly when the library tag mentions lets-plot: n
cells, or n+1 with the setup cell first. -/
theorem C7_unit_size_order (fs : Nat → Bool) (csvFolder : Str) (plottingLib : String)
    (dataset : List BenchmarkItem) (h : ∀ a ∈ dataset, fs a.id = true) :
    build_plots_cells fs csvFolder plottingLib dataset =
      Except.ok (setupCells plottingLib ++ dataset.map (genSrc csvFolder plottingLib)) ∧
    (setupCells plottingLib ++ dataset.map (genSrc csvFolder plottingLib)).length =
      (if strContains plottingLib "lets-plot" then dataset.length + 1
       else dataset.length) := by
  constructor
  · rw [build_plots_cells, mapExcept_gen_ok fs csvFolder plottingLib dataset h]
  · rw [List.length_append, List.length_map, setupCells]
    by_cases hl : strContains plottingLib "lets-plot" = true
    · rw [if_pos hl, if_pos hl]
      simp [Nat.add_comm]
    · rw [if_neg hl, if_neg hl]
      simp

/-- C7 witness: two items, all data files present, matplotlib tag (no
setup cell): exactly two cells, in input order. -/
def dsC7 : List BenchmarkItem :=
  [⟨1, "df = pd.read_csv('data.csv')".toList, "df.plot()".toList⟩,
    ⟨2, "df = pd.read_csv('data.csv')".toList, "df.hist()".toList⟩]

theorem C7_unit_size_order_witness :
    build_plots_cells (fun _ => true) "/data".toList "matplotlib" dsC7 =
      Except.ok (setupCells "matplotlib" ++ dsC7.map (genSrc "/data".toList "matplotlib")) ∧
    (setupCells "matplotlib" ++ dsC7.map (genSrc "/data".toList "matplotlib")).length =
      (if strContains "matplotlib" "lets-plot" then dsC7.length + 1 else dsC7.length) :=
  C7_unit_size_order (fun _ => true) "/data".toList "matplotlib" dsC7 (fun a _ => rfl)

/-- C8: a missing per-item data file `data-<id>.csv` raises a
FileNotFound-class error both at harness construction time
(`check_csv`, run over every item before anything is assembled or
executed) and per item at assembly time (`generate_code`); when every
file exists, construction succeeds. -/
theorem C8_missing_csv_fails (fs : Nat → Bool) (csvFolder : Str) (plottingLib : String) :
    (∀ dataset : List BenchmarkItem, (∃ item ∈ dataset, fs item.id = false) →
      ∃ msg, check_csv fs dataset = Except.error msg) ∧
    (∀ dataset : List BenchmarkItem, (∀ item ∈ dataset, fs item.id = true) →
      check_csv fs dataset = Except.ok ()) ∧
    (∀ item : BenchmarkItem, fs item.id = false →
      ∃ msg, generate_code fs csvFolder plottingLib item = Except.error msg) := by
  refine ⟨?_, ?_, ?_⟩
  · intro dataset
    induction dataset with
    | nil =>
      rintro ⟨item, hmem, -⟩
      cases hmem
    | cons a as ih =>
      rintro ⟨item, hmem, hfalse⟩
      rw [check_csv]
      by_cases hfa : fs a.id = false
      · rw [if_pos hfa]
        exact ⟨_, rfl⟩
      · rw [if_neg hfa]
        apply ih
        rcases List.mem_cons.mp hmem with rfl | hmem'
        · exact absurd hfalse hfa
        · exact ⟨item, hmem', hfalse⟩
  · intro dataset
    induction dataset with
    | nil => intro h; rfl
    | cons a as ih =>
      intro h
      rw [check_csv,
        if_neg (by rw [h a (List.mem_cons_self a as)]; exact fun hx => Bool.noConfusion hx)]
      exact ih (fun b hb => h b (List.mem_cons_of_mem a hb))
  · intro item hf
    rw [generate_code, if_pos hf]
    exact ⟨_, rfl⟩

/-- C8 witness: with no data file present, construction over a
one-item dataset fails, assembly of that item fails; with every file
present, construction succeeds. -/
theorem C8_missing_csv_fails_witness :
    (∃ msg, check_csv (fun _ => false) [⟨9, [], []⟩] = Except.error msg) ∧
    (∃ msg, generate_code (fun _ => false) "/data".toList "matplotlib" ⟨9, [], []⟩ =
      Except.error msg) ∧
    check_csv (fun _ => true) [⟨9, [], []⟩] = Except.ok () := by
  obtain ⟨h1, -, h3⟩ := C8_missing_csv_fails (fun _ => false) "/data".toList "matplotlib"
  refine ⟨h1 [⟨9, [], []⟩] ⟨⟨9, [], []⟩, List.mem_singleton.mpr rfl, rfl⟩,
    h3 ⟨9, [], []⟩ rfl, ?_⟩
  exact (C8_missing_csv_fails (fun _ => true) "/data".toList "matplotlib").2.1
    [⟨9, [], []⟩] (fun item _ => rfl)

/-- C9: (i) for every built and executed notebook of the pipeline,
extraction succeeds and the returned Outcome ids are exactly the
dataset ids in order — in particular every Outcome id belongs to the
original benchmark item ids, so extraction never invents an id
(whatever outputs execution produced, including the lets-plot setup
cell which is silently skipped); (ii) extraction skips without error
every cell that is not a code cell or whose newline-stripped source
does not begin with `"# id = "`.  Execution semantics (jupyter
nbconvert) is modelled from the spec. -/
theorem C9_ids_subset (fs : Nat → Bool) (csvFolder : Str) (plottingLib : String)
    (dataset : List BenchmarkItem) (eval : Nat → Str → CellExec) (cells : List Str)
    (h : build_plots_cells fs csvFolder plottingLib dataset = Except.ok cells) :
    (∃ outcomes,
      parse_plots_notebook (executeNotebook eval cells) = Except.ok outcomes ∧
      outcomes.map (fun o => o.id) = dataset.map (fun i => i.id) ∧
      ∀ o ∈ outcomes, o.id ∈ dataset.map (fun i => i.id)) ∧
    (∀ (c : Cell) (rest : List Cell),
      c.cell_type ≠ "code" ∨ idMarker.isPrefixOf (lstripNl c.source) = false →
      parse_plots_notebook (c :: rest) = parse_plots_notebook rest) := by
  constructor
  · have hc := build_plots_cells_ok_inv fs csvFolder plottingLib dataset cells h
    subst hc
    rw [executeNotebook, runCells_true_eq, mapWithIndex_append]
    by_cases hl : strContains plottingLib "lets-plot" = true
    · rw [setupCells, if_pos hl]
      obtain ⟨outs, hok, hids⟩ := parse_executed_gens eval csvFolder plottingLib dataset 1
      refine ⟨outs, ?_, hids, ?_⟩
      · show parse_plots_notebook
          (execCell eval 0 setupSrc ::
            mapWithIndex (execCell eval)
              (0 + 1) (dataset.map (genSrc csvFolder plottingLib))) = Except.ok outs
        rw [parse_skip_setup, Nat.zero_add, hok]
      · intro o ho
        rw [← hids]
        exact List.mem_map_of_mem _ ho
    · rw [setupCells, if_neg hl]
      obtain ⟨outs, hok, hids⟩ := parse_executed_gens eval csvFolder plottingLib dataset 0
      refine ⟨outs, ?_, hids, ?_⟩
      · show parse_plots_notebook
          (mapWithIndex (execCell eval)
            (0 + 0) (dataset.map (genSrc csvFolder plottingLib))) = Except.ok outs
        rw [Nat.zero_add]
        exact hok
      · intro o ho
        rw [← hids]
        exact List.mem_map_of_mem _ ho
  · intro c rest hor
    exact parse_skip rest hor

/-- C9 witness: a one-item dataset, all files present, matplotlib tag;
whatever the executed outputs (here: none), extraction returns exactly
the id 3 and skips nothing it should keep. -/
def dsC9 : List BenchmarkItem := [⟨3, "a".toList, "b".toList⟩]

def evalC9 : Nat → Str → CellExec := fun _ _ => CellExec.ok []

theorem C9_ids_subset_witness :
    (∃ outcomes,
      parse_plots_notebook
          (executeNotebook evalC9 [genSrc "/d".toList "matplotlib" ⟨3, "a".toList, "b".toList⟩]) =
        Except.ok outcomes ∧
      outcomes.map (fun o => o.id) = dsC9.map (fun i => i.id) ∧
      ∀ o ∈ outcomes, o.id ∈ dsC9.map (fun i => i.id)) ∧
    (∀ (c : Cell) (rest : List Cell),
      c.cell_type ≠ "code" ∨ idMarker.isPrefixOf (lstripNl c.source) = false →
      parse_plots_notebook (c :: rest) = parse_plots_notebook rest) :=
  C9_ids_subset (fun _ => true) "/d".toList "matplotlib" dsC9 evalC9
    [genSrc "/d".toList "matplotlib" ⟨3, "a".toList, "b".toList⟩] rfl

/-- C10: the extractor strips leading newline characters from a cell's
source before testing for the id marker: prepending any number of
newlines to a cell's source never changes the extraction result, and a
concrete cell whose source is two blank lines followed by `"# id = 7"`
is still recognized and yields the Outcome with id 7. -/
theorem C10_leading_newlines_stripped :
    (∀ (k : Nat) (ct : String) (src : Str) (outs : List NbOutput) (rest : List Cell),
      parse_plots_notebook (⟨ct, List.replicate k '\n' ++ src, outs⟩ :: rest) =
        parse_plots_notebook (⟨ct, src, outs⟩ :: rest)) ∧
    parse_plots_notebook [⟨"code", '\n' :: '\n' :: "# id = 7".toList, []⟩] =
      Except.ok [{ id := 7, error := "", plots_generated := [], has_plot := false }] := by
  constructor
  · intro k ct src outs rest
    have hl : lstripNl (List.replicate k '\n' ++ src) = lstripNl src := by
      rw [lstripNl, lstripNl, dropWhile_append_all]
      intro c hc
      rw [List.eq_of_mem_replicate hc]
      decide
    rw [parse_plots_notebook, parse_plots_notebook]
    simp only [hl]
  · rfl

end PlotBench
